import Mathlib

/-
Verification of the survey server core (main.go): the question catalog,
the append-only answer store, and the two HTTP handlers built on them.
The JSON layer models the observable behaviour of encoding/json as used
by the handlers: parsing one JSON value from the request body, decoding
it into the request struct (unknown keys ignored, null accepted, missing
fields left at their zero values), and encoding the fixed responses.
-/

namespace Survey

/-- JSON value, as produced by scanning one JSON text. A number literal
carries `some v` when it is a plain integer literal with value `v`
(no fraction, no exponent), and `none` otherwise; integer-typed struct
fields only accept plain integer literals, mirroring encoding/json. -/
inductive Json where
  | null
  | bool (b : Bool)
  | num (intVal : Option Int)
  | str (s : String)
  | arr (elems : List Json)
  | obj (fields : List (String × Json))
deriving Repr

/-- Drop leading JSON whitespace. -/
def skipWs : List Char → List Char
  | [] => []
  | c :: cs => if c = ' ' ∨ c = '\t' ∨ c = '\n' ∨ c = '\r' then skipWs cs else c :: cs

/-- Value of a hexadecimal digit, if the character is one. -/
def hexVal (c : Char) : Option Nat :=
  if '0' ≤ c ∧ c ≤ '9' then some (c.toNat - '0'.toNat)
  else if 'a' ≤ c ∧ c ≤ 'f' then some (c.toNat - 'a'.toNat + 10)
  else if 'A' ≤ c ∧ c ≤ 'F' then some (c.toNat - 'A'.toNat + 10)
  else none

/-- Scan the body of a JSON string literal (after the opening quote),
handling escapes, until the closing quote; `acc` holds the decoded
characters in reverse. Control characters must be escaped. -/
def parseStringAux : List Char → List Char → Option (String × List Char)
  | _, [] => none
  | acc, c :: cs =>
    if c = '"' then some (String.mk acc.reverse, cs)
    else if c = '\\' then
      match cs with
      | [] => none
      | e :: cs2 =>
        if e = '"' then parseStringAux ('"' :: acc) cs2
        else if e = '\\' then parseStringAux ('\\' :: acc) cs2
        else if e = '/' then parseStringAux ('/' :: acc) cs2
        else if e = 'b' then parseStringAux ('\x08' :: acc) cs2
        else if e = 'f' then parseStringAux ('\x0c' :: acc) cs2
        else if e = 'n' then parseStringAux ('\n' :: acc) cs2
        else if e = 'r' then parseStringAux ('\r' :: acc) cs2
        else if e = 't' then parseStringAux ('\t' :: acc) cs2
        else if e = 'u' then
          match cs2 with
          | a :: b :: c3 :: d :: cs3 =>
            match hexVal a, hexVal b, hexVal c3, hexVal d with
            | some ha, some hb, some hc, some hd =>
              parseStringAux (Char.ofNat (((ha * 16 + hb) * 16 + hc) * 16 + hd) :: acc) cs3
            | _, _, _, _ => none
          | _ => none
        else none
    else if c.toNat < 0x20 then none
    else parseStringAux (c :: acc) cs

/-- Numeric value of a digit string. -/
def digitsVal (ds : List Char) : Nat :=
  ds.foldl (fun n c => n * 10 + (c.toNat - '0'.toNat)) 0

/-- Scan a JSON exponent part (after the e or E), returning the rest. -/
def parseExp (cs : List Char) : Option (List Char) :=
  let cs1 : List Char := match cs with
    | '+' :: r => r
    | '-' :: r => r
    | _ => cs
  let ds := cs1.takeWhile (fun c => c.isDigit)
  if ds = [] then none else some (cs1.dropWhile (fun c => c.isDigit))

/-- Scan a JSON number literal. Leading zeros, a bare minus, a dot with
no digits and a malformed exponent are rejected; a fraction or exponent
makes the literal a non-integer (`Json.num none`). -/
def parseNumber (cs : List Char) : Option (Json × List Char) :=
  let p : Bool × List Char := match cs with
    | '-' :: r => (true, r)
    | _ => (false, cs)
  let neg := p.1
  let cs1 := p.2
  let ds := cs1.takeWhile (fun c => c.isDigit)
  let rest := cs1.dropWhile (fun c => c.isDigit)
  if ds = [] then none
  else if ds.length > 1 ∧ ds.head? = some '0' then none
  else
    let intPart : Int := if neg then -(digitsVal ds : Int) else (digitsVal ds : Int)
    match rest with
    | '.' :: r2 =>
      let fs := r2.takeWhile (fun c => c.isDigit)
      let r3 := r2.dropWhile (fun c => c.isDigit)
      if fs = [] then none
      else
        match r3 with
        | 'e' :: r4 => (parseExp r4).map (fun r5 => (Json.num none, r5))
        | 'E' :: r4 => (parseExp r4).map (fun r5 => (Json.num none, r5))
        | _ => some (Json.num none, r3)
    | 'e' :: r2 => (parseExp r2).map (fun r3 => (Json.num none, r3))
    | 'E' :: r2 => (parseExp r2).map (fun r3 => (Json.num none, r3))
    | _ => some (Json.num (some intPart), rest)

mutual

/-- Scan one JSON value; `fuel` bounds the recursion depth and is always
sufficient when seeded with the input length (each unit of fuel consumed
corresponds to at least one consumed input character). -/
def parseValue : Nat → List Char → Option (Json × List Char)
  | 0, _ => none
  | fuel + 1, cs =>
    match skipWs cs with
    | [] => none
    | c :: rest =>
      if c = 'n' then
        match rest with
        | 'u' :: 'l' :: 'l' :: r => some (Json.null, r)
        | _ => none
      else if c = 't' then
        match rest with
        | 'r' :: 'u' :: 'e' :: r => some (Json.bool true, r)
        | _ => none
      else if c = 'f' then
        match rest with
        | 'a' :: 'l' :: 's' :: 'e' :: r => some (Json.bool false, r)
        | _ => none
      else if c = '"' then (parseStringAux [] rest).map (fun p => (Json.str p.1, p.2))
      else if c = '[' then
        match skipWs rest with
        | ']' :: r => some (Json.arr [], r)
        | cs2 => (parseElems fuel cs2).map (fun p => (Json.arr p.1, p.2))
      else if c = '\x7b' then
        match skipWs rest with
        | '\x7d' :: r => some (Json.obj [], r)
        | cs2 => (parseMembers fuel cs2).map (fun p => (Json.obj p.1, p.2))
      else if c = '-' ∨ c.isDigit then parseNumber (c :: rest)
      else none

/-- Scan the elements of a non-empty JSON array up to the closing bracket. -/
def parseElems : Nat → List Char → Option (List Json × List Char)
  | 0, _ => none
  | fuel + 1, cs =>
    match parseValue fuel cs with
    | none => none
    | some (v, r) =>
      match skipWs r with
      | ',' :: r2 =>
        match parseElems fuel r2 with
        | none => none
        | some (es, r3) => some (v :: es, r3)
      | ']' :: r2 => some ([v], r2)
      | _ => none

/-- Scan the members of a non-empty JSON object up to the closing brace. -/
def parseMembers : Nat → List Char → Option (List (String × Json) × List Char)
  | 0, _ => none
  | fuel + 1, cs =>
    match skipWs cs with
    | '"' :: r =>
      match parseStringAux [] r with
      | none => none
      | some (k, r2) =>
        match skipWs r2 with
        | ':' :: r3 =>
          match parseValue fuel r3 with
          | none => none
          | some (v, r4) =>
            match skipWs r4 with
            | ',' :: r5 =>
              match parseMembers fuel r5 with
              | none => none
              | some (ms, r6) => some ((k, v) :: ms, r6)
            | '\x7d' :: r5 => some ([(k, v)], r5)
            | _ => none
        | _ => none
    | _ => none

end

/-- Read one JSON value from the body, as json.Decoder.Decode does:
leading whitespace is skipped, exactly one value is consumed, and any
bytes after it are left unread (not an error). -/
def parseOneJson (body : String) : Option Json :=
  match parseValue (4 * body.length + 16) body.toList with
  | some (v, _) => some v
  | none => none

/-- Question from main.go: ID, Text, Type with json tags id, text, type. -/
structure Question where
  ID : Int
  Text : String
  Type' : String
deriving DecidableEq, Repr

/-- Answer from main.go: QuestionID, Value with json tags questionId, value. -/
structure Answer where
  QuestionID : Int
  Value : String
deriving DecidableEq, Repr

/-- AnswersRequest from main.go: the Answers slice with json tag answers.
A nil slice and an empty slice are both the empty list here. -/
structure AnswersRequest where
  Answers : List Answer
deriving DecidableEq, Repr

/-- The fixed question catalog from main.go. -/
def questions : List Question :=
  [ { ID := 1, Text := "Как вас зовут?", Type' := "text" },
    { ID := 2, Text := "Сколько вам лет?", Type' := "number" },
    { ID := 3, Text := "Ваш любимый язык программирования?", Type' := "text" },
    { ID := 4, Text := "Готовы учить Go глубже?", Type' := "text" } ]

/-- ASCII lower-casing, for case-insensitive JSON key matching. -/
def asciiLower (c : Char) : Char :=
  if 'A' ≤ c ∧ c ≤ 'Z' then Char.ofNat (c.toNat + 32) else c

/-- Case-insensitive key comparison: encoding/json matches object keys
to struct field tags case-insensitively. -/
def eqFold (a b : String) : Bool :=
  a.toList.map asciiLower = b.toList.map asciiLower

/-- Decode a JSON value into an int field currently holding `cur`:
null leaves the value unchanged, a plain integer literal sets it, and
anything else (including a fractional number) is a decode error. -/
def decodeIntInto (cur : Int) : Json → Option Int
  | Json.null => some cur
  | Json.num (some v) => some v
  | _ => none

/-- Decode a JSON value into a string field currently holding `cur`:
null leaves the value unchanged, a string sets it, anything else errors. -/
def decodeStrInto (cur : String) : Json → Option String
  | Json.null => some cur
  | Json.str s => some s
  | _ => none

/-- Fold the members of a JSON object into an Answer, in stream order:
keys matching questionId or value (case-insensitively) set that field,
later duplicates overwriting earlier ones; unknown keys are ignored. -/
def decodeAnswerFields : Answer → List (String × Json) → Option Answer
  | cur, [] => some cur
  | cur, (k, v) :: rest =>
    if eqFold k "questionId" then
      match decodeIntInto cur.QuestionID v with
      | some n => decodeAnswerFields { cur with QuestionID := n } rest
      | none => none
    else if eqFold k "value" then
      match decodeStrInto cur.Value v with
      | some s => decodeAnswerFields { cur with Value := s } rest
      | none => none
    else decodeAnswerFields cur rest

/-- Decode a JSON value into an Answer struct: an object is folded field
by field, null leaves the current (zero) value, anything else errors. -/
def decodeAnswer (cur : Answer) : Json → Option Answer
  | Json.null => some cur
  | Json.obj fields => decodeAnswerFields cur fields
  | _ => none

/-- Decode a JSON value into the Answers slice: null yields the nil
slice, an array decodes each element into a zero Answer, anything else
errors. -/
def decodeAnswersSlice : Json → Option (List Answer)
  | Json.null => some []
  | Json.arr es => es.mapM (decodeAnswer { QuestionID := 0, Value := "" })
  | _ => none

/-- Fold the members of a JSON object into an AnswersRequest, in stream
order: keys matching answers (case-insensitively) decode the slice,
unknown keys are ignored. -/
def decodeRequestFields : AnswersRequest → List (String × Json) → Option AnswersRequest
  | cur, [] => some cur
  | cur, (k, v) :: rest =>
    if eqFold k "answers" then
      match decodeAnswersSlice v with
      | some a => decodeRequestFields { Answers := a } rest
      | none => none
    else decodeRequestFields cur rest

/-- Decode a JSON value into the AnswersRequest struct, starting from
its zero value (nil Answers slice). -/
def decodeAnswersRequest : Json → Option AnswersRequest
  | Json.null => some { Answers := [] }
  | Json.obj fields => decodeRequestFields { Answers := [] } fields
  | _ => none

/-- The whole decode step of the POST /answers handler: read one JSON
value from the body and unmarshal it into AnswersRequest. -/
def decodeBody (body : String) : Option AnswersRequest :=
  match parseOneJson body with
  | some j => decodeAnswersRequest j
  | none => none

/-- answerStore from main.go: the list of saved batches. The mutex is
not part of the sequential state; its guarantee is modelled by running
concurrent saves in a serialization order (see the concurrency theorem). -/
structure answerStore where
  answers : List AnswersRequest
deriving DecidableEq, Repr

/-- answerStore.save from main.go: appends the request to the slice
under the mutex. -/
def answerStore.save (s : answerStore) (req : AnswersRequest) : answerStore :=
  { answers := s.answers ++ [req] }

/-- The observable outcome of writing one HTTP response. `jsonBody` is
the successfully encoded JSON payload (none when encoding failed or the
response was plain text); `textBody` is the plain-text body of an error
response; `encodeErrorLogged` records the log line writeJSON emits when
encoding fails. -/
structure HttpResponse where
  status : Nat
  contentType : String
  jsonBody : Option Json
  textBody : Option String
  encodeErrorLogged : Bool
deriving Repr

/-- writeJSON from main.go: sets the JSON content type, writes the
status, and encodes the payload; an encoding failure is only logged. -/
def writeJSON (encodeFails : Bool) (status : Nat) (payload : Json) : HttpResponse :=
  { status := status
    contentType := "application/json"
    jsonBody := if encodeFails then none else some payload
    textBody := none
    encodeErrorLogged := encodeFails }

/-- http.Error as called by the handler: plain-text error message with
a trailing newline and the given status code. -/
def httpError (msg : String) (code : Nat) : HttpResponse :=
  { status := code
    contentType := "text/plain; charset=utf-8"
    jsonBody := none
    textBody := some (msg ++ "\n")
    encodeErrorLogged := false }

/-- JSON encoding of a Question, fields in declaration order with their
json tags, as encoding/json produces for the struct. -/
def encodeQuestion (q : Question) : Json :=
  Json.obj [("id", Json.num (some q.ID)), ("text", Json.str q.Text), ("type", Json.str q.Type')]

/-- The payload written on a successful POST /answers:
map[string]string with the single entry status: ok. -/
def okPayload : Json :=
  Json.obj [("status", Json.str "ok")]

/-- The GET /questions handler: writes the catalog as JSON with status
200, leaving the store untouched. `encodeFails` models a failure of the
response encoder. -/
def handleGetQuestions (encodeFails : Bool) (store : answerStore) :
    answerStore × HttpResponse :=
  (store, writeJSON encodeFails 200 (Json.arr (questions.map encodeQuestion)))

/-- The POST /answers handler: decode the body; on failure report
invalid JSON payload with status 400 and touch nothing; on success save
the decoded request and write the ok payload with status 200. -/
def handlePostAnswers (body : String) (encodeFails : Bool) (store : answerStore) :
    answerStore × HttpResponse :=
  match decodeBody body with
  | none => (store, httpError "invalid JSON payload" 400)
  | some req => (store.save req, writeJSON encodeFails 200 okPayload)

/-- A submit body referencing question 1 with value Иван, from the
end-to-end scenario. -/
def bodyIvan : String := "\x7b\"answers\":[\x7b\"questionId\":1,\"value\":\"Иван\"\x7d]\x7d"

/-- The batch that bodyIvan decodes to. -/
def reqIvan : AnswersRequest := { Answers := [{ QuestionID := 1, Value := "Иван" }] }

/-- A submit body whose single answer references question id 999, which
is not in the catalog. -/
def body999 : String := "\x7b\"answers\":[\x7b\"questionId\":999,\"value\":\"v\"\x7d]\x7d"

/-- The batch that body999 decodes to. -/
def req999 : AnswersRequest := { Answers := [{ QuestionID := 999, Value := "v" }] }

/-- A submit body carrying an explicitly empty answers array. -/
def emptyBatchBody : String := "\x7b\"answers\":[]\x7d"

/-- Folding save over a list of batches appends them in order. -/
theorem foldl_save_answers (order : List AnswersRequest) (s : answerStore) :
    (order.foldl answerStore.save s).answers = s.answers ++ order := by
  induction order generalizing s with
  | nil => simp
  | cons r rest ih => simp [List.foldl_cons, ih, answerStore.save]

/-- C1: a POST /answers request whose body decodes successfully makes
exactly one append to the store, with the decoded batch placed at the
end unchanged, and responds with the status ok payload and code 200. -/
theorem post_answers_appends_once (body : String) (s : answerStore) (req : AnswersRequest)
    (h : decodeBody body = some req) :
    handlePostAnswers body false s =
      ({ answers := s.answers ++ [req] }, writeJSON false 200 okPayload) ∧
    (writeJSON false 200 okPayload).jsonBody = some (Json.obj [("status", Json.str "ok")]) ∧
    (writeJSON false 200 okPayload).status = 200 := by
  refine ⟨?_, rfl, rfl⟩
  simp [handlePostAnswers, h, answerStore.save]

/-- Witness for C1: the end-to-end scenario body appends its decoded
batch to the empty store and gets the ok response. -/
theorem post_answers_appends_once_witness :
    handlePostAnswers bodyIvan false { answers := [] } =
      ({ answers := ([] : List AnswersRequest) ++ [reqIvan] }, writeJSON false 200 okPayload) ∧
    (writeJSON false 200 okPayload).jsonBody = some (Json.obj [("status", Json.str "ok")]) ∧
    (writeJSON false 200 okPayload).status = 200 :=
  post_answers_appends_once bodyIvan { answers := [] } reqIvan rfl

/-- C2: a POST /answers body that fails to decode is rejected with the
plain-text client error invalid JSON payload and status 400, and the
store is untouched, so its length is unchanged. -/
theorem post_answers_decode_failure (body : String) (f : Bool) (s : answerStore)
    (h : decodeBody body = none) :
    handlePostAnswers body f s = (s, httpError "invalid JSON payload" 400) ∧
    (handlePostAnswers body f s).1.answers.length = s.answers.length ∧
    (httpError "invalid JSON payload" 400).status = 400 ∧
    (httpError "invalid JSON payload" 400).jsonBody = none ∧
    (httpError "invalid JSON payload" 400).textBody = some ("invalid JSON payload" ++ "\n") := by
  have h1 : handlePostAnswers body f s = (s, httpError "invalid JSON payload" 400) := by
    simp [handlePostAnswers, h]
  exact ⟨h1, by rw [h1], rfl, rfl, rfl⟩

/-- Witness for C2: the literal text not-json fails to decode and leaves
the store unchanged with a 400 plain-text error. -/
theorem post_answers_decode_failure_witness :
    handlePostAnswers "not-json" false { answers := [reqIvan] } =
      ({ answers := [reqIvan] }, httpError "invalid JSON payload" 400) ∧
    (handlePostAnswers "not-json" false { answers := [reqIvan] }).1.answers.length =
      ({ answers := [reqIvan] } : answerStore).answers.length ∧
    (httpError "invalid JSON payload" 400).status = 400 ∧
    (httpError "invalid JSON payload" 400).jsonBody = none ∧
    (httpError "invalid JSON payload" 400).textBody = some ("invalid JSON payload" ++ "\n") :=
  post_answers_decode_failure "not-json" false { answers := [reqIvan] } rfl

/-- C3: save is append-only: it adds the batch as the new last element,
grows the length by exactly one, and leaves every previously stored
entry in place (the old sequence is the prefix of the new one). -/
theorem store_append_only (s : answerStore) (req : AnswersRequest) :
    (s.save req).answers = s.answers ++ [req] ∧
    (s.save req).answers.length = s.answers.length + 1 ∧
    (s.save req).answers.getLast? = some req ∧
    (s.save req).answers.take s.answers.length = s.answers := by
  refine ⟨rfl, by simp [answerStore.save], ?_, ?_⟩
  · simp [answerStore.save]
  · simp [answerStore.save, List.take_left]

/-- C4: running N concurrent saves of distinct single-element batches on
a store of length L, in whatever serialization order the mutex produces,
yields a store of length L plus N whose new suffix is exactly that
order, with every submitted batch appearing exactly once, whole. -/
theorem concurrent_appends_serialize (s : answerStore) (batches order : List AnswersRequest)
    (hperm : List.Perm order batches) (hnodup : batches.Nodup)
    (_hsingle : ∀ b ∈ batches, b.Answers.length = 1) :
    (order.foldl answerStore.save s).answers = s.answers ++ order ∧
    (order.foldl answerStore.save s).answers.length = s.answers.length + batches.length ∧
    ∀ b ∈ batches,
      ((order.foldl answerStore.save s).answers.drop s.answers.length).count b = 1 := by
  have hfold := foldl_save_answers order s
  refine ⟨hfold, ?_, ?_⟩
  · rw [hfold, List.length_append, hperm.length_eq]
  · intro b hb
    rw [hfold, List.drop_left, hperm.count_eq]
    exact List.count_eq_one_of_mem hnodup hb

/-- Witness for C4: two distinct single-answer batches saved in the
reverse of their listing order land whole, once each, on the empty
store, which ends with exactly two entries. -/
theorem concurrent_appends_serialize_witness :
    (([req999, reqIvan] : List AnswersRequest).foldl answerStore.save { answers := [] }).answers =
      ({ answers := [] } : answerStore).answers ++ [req999, reqIvan] ∧
    (([req999, reqIvan] : List AnswersRequest).foldl answerStore.save
      { answers := [] }).answers.length =
      ({ answers := [] } : answerStore).answers.length + ([reqIvan, req999] : List AnswersRequest).length ∧
    ∀ b ∈ ([reqIvan, req999] : List AnswersRequest),
      ((([req999, reqIvan] : List AnswersRequest).foldl answerStore.save
        { answers := [] }).answers.drop
          ({ answers := [] } : answerStore).answers.length).count b = 1 :=
  concurrent_appends_serialize { answers := [] } [reqIvan, req999] [req999, reqIvan]
    (by decide) (by decide) (by decide)

/-- C5: the GET /questions handler is pure: it never touches the store,
its response is the fixed catalog in definition order with status 200,
and the response is unchanged by any intervening saves. -/
theorem list_questions_pure (s : answerStore) (reqs : List AnswersRequest) (f : Bool) :
    handleGetQuestions f s = (s, writeJSON f 200 (Json.arr (questions.map encodeQuestion))) ∧
    (handleGetQuestions f (reqs.foldl answerStore.save s)).2 = (handleGetQuestions f s).2 ∧
    (handleGetQuestions f s).2.status = 200 :=
  ⟨rfl, rfl, rfl⟩

/-- C6: the catalog has exactly 4 questions with positive, pairwise
distinct ids and type text or number; its first entry is question 1,
Как вас зовут?, of type text; and the GET /questions response body is
the JSON array of the catalog entries with keys id, text, type. -/
theorem catalog_contents :
    questions.length = 4 ∧
    (questions.map (fun q => q.ID)).Nodup ∧
    (questions.all (fun q => decide (0 < q.ID) &&
      (q.Type' == "text" || q.Type' == "number"))) = true ∧
    questions.head? = some { ID := 1, Text := "Как вас зовут?", Type' := "text" } ∧
    (handleGetQuestions false { answers := [] }).2.jsonBody =
      some (Json.arr (questions.map encodeQuestion)) ∧
    (questions.map encodeQuestion).head? = some (Json.obj
      [("id", Json.num (some 1)), ("text", Json.str "Как вас зовут?"),
       ("type", Json.str "text")]) := by
  refine ⟨rfl, by decide, by decide, rfl, rfl, rfl⟩

/-- C7: save is total and unconditional: for every batch, including the
empty one, it grows the store by exactly one entry, and a POST of an
explicitly empty answers array is recorded as its own batch. -/
theorem append_never_fails (s : answerStore) (req : AnswersRequest) :
    (s.save req).answers.length = s.answers.length + 1 ∧
    (s.save { Answers := [] }).answers.length = s.answers.length + 1 ∧
    (handlePostAnswers emptyBatchBody false s).1.answers.length = s.answers.length + 1 ∧
    (handlePostAnswers emptyBatchBody false s).2 = writeJSON false 200 okPayload := by
  have h : decodeBody emptyBatchBody = some { Answers := [] } := rfl
  refine ⟨by simp [answerStore.save], by simp [answerStore.save], ?_, ?_⟩
  · simp [handlePostAnswers, h, answerStore.save]
  · simp [handlePostAnswers, h]

/-- C8: a decoded batch whose answers reference question ids absent from
the catalog is stored as submitted, with the same ok acknowledgement as
a submission referencing valid ids: the submit path checks nothing
against the catalog. -/
theorem unknown_question_id_accepted (body : String) (s : answerStore) (req : AnswersRequest)
    (hdec : decodeBody body = some req)
    (_hmism : req.Answers.any (fun a => questions.all (fun q => q.ID != a.QuestionID)) = true) :
    handlePostAnswers body false s =
      ({ answers := s.answers ++ [req] }, writeJSON false 200 okPayload) ∧
    (handlePostAnswers body false s).2 = (handlePostAnswers bodyIvan false s).2 := by
  have hIvan : decodeBody bodyIvan = some reqIvan := rfl
  constructor
  · simp [handlePostAnswers, hdec, answerStore.save]
  · simp [handlePostAnswers, hdec, hIvan]

/-- Witness for C8: a batch referencing the unknown question id 999 is
appended as-is and acknowledged exactly like a valid submission. -/
theorem unknown_question_id_accepted_witness :
    handlePostAnswers body999 false { answers := [] } =
      ({ answers := ([] : List AnswersRequest) ++ [req999] }, writeJSON false 200 okPayload) ∧
    (handlePostAnswers body999 false { answers := [] }).2 =
      (handlePostAnswers bodyIvan false { answers := [] }).2 :=
  unknown_question_id_accepted body999 { answers := [] } req999 rfl (by decide)

/-- C9: when the success-response encoding fails, the store still holds
exactly the post-append state: the appended batch is present, the
resulting store equals the one from a successful encoding, and the
failure is only logged while the 200 status was already written. -/
theorem encode_failure_preserves_store (body : String) (s : answerStore) (req : AnswersRequest)
    (hdec : decodeBody body = some req) :
    (handlePostAnswers body true s).1 = (handlePostAnswers body false s).1 ∧
    (handlePostAnswers body true s).1.answers = s.answers ++ [req] ∧
    (handlePostAnswers body true s).2.encodeErrorLogged = true ∧
    (handlePostAnswers body true s).2.status = 200 ∧
    (handlePostAnswers body true s).2.jsonBody = none := by
  refine ⟨?_, ?_, ?_, ?_, ?_⟩ <;>
    simp [handlePostAnswers, hdec, answerStore.save, writeJSON]

/-- Witness for C9: with a failing encoder, the scenario body is still
appended and only the log flag differs from the successful run. -/
theorem encode_failure_preserves_store_witness :
    (handlePostAnswers bodyIvan true { answers := [] }).1 =
      (handlePostAnswers bodyIvan false { answers := [] }).1 ∧
    (handlePostAnswers bodyIvan true { answers := [] }).1.answers =
      ({ answers := [] } : answerStore).answers ++ [reqIvan] ∧
    (handlePostAnswers bodyIvan true { answers := [] }).2.encodeErrorLogged = true ∧
    (handlePostAnswers bodyIvan true { answers := [] }).2.status = 200 ∧
    (handlePostAnswers bodyIvan true { answers := [] }).2.jsonBody = none :=
  encode_failure_preserves_store bodyIvan { answers := [] } reqIvan rfl

/-- Folding object members with no key matching answers leaves the
request struct unchanged. -/
theorem decodeRequestFields_no_answers (cur : AnswersRequest)
    (fields : List (String × Json))
    (h : fields.all (fun kv => !(eqFold kv.1 "answers")) = true) :
    decodeRequestFields cur fields = some cur := by
  induction fields with
  | nil => rfl
  | cons kv rest ih =>
    rw [List.all_cons, Bool.and_eq_true] at h
    have hk : eqFold kv.1 "answers" = false := by
      simpa using h.1
    simp [decodeRequestFields, hk, ih h.2]

/-- C10: a body that parses as JSON null, or as an object none of whose
keys matches answers (whatever the other keys hold), is not rejected:
it decodes to the zero request with a nil batch, exactly one empty batch
is appended, and the handler answers with the ok payload. -/
theorem lenient_decode_accepts (body : String) (s : answerStore)
    (h : parseOneJson body = some Json.null ∨
      ∃ fields, parseOneJson body = some (Json.obj fields) ∧
        fields.all (fun kv => !(eqFold kv.1 "answers")) = true) :
    decodeBody body = some { Answers := [] } ∧
    (handlePostAnswers body false s).1.answers = s.answers ++ [{ Answers := [] }] ∧
    (handlePostAnswers body false s).2 = writeJSON false 200 okPayload := by
  have hdec : decodeBody body = some { Answers := [] } := by
    rcases h with hnull | ⟨fields, hobj, hall⟩
    · simp [decodeBody, hnull, decodeAnswersRequest]
    · simp [decodeBody, hobj, decodeAnswersRequest,
        decodeRequestFields_no_answers _ fields hall]
  refine ⟨hdec, ?_, ?_⟩ <;> simp [handlePostAnswers, hdec, answerStore.save]

/-- Witness for C10: the object with the single unknown key extra is
accepted, appends one empty batch, and earns the ok response. -/
theorem lenient_decode_accepts_witness :
    decodeBody "\x7b\"extra\":1\x7d" = some { Answers := [] } ∧
    (handlePostAnswers "\x7b\"extra\":1\x7d" false { answers := [] }).1.answers =
      ({ answers := [] } : answerStore).answers ++ [{ Answers := [] }] ∧
    (handlePostAnswers "\x7b\"extra\":1\x7d" false { answers := [] }).2 =
      writeJSON false 200 okPayload :=
  lenient_decode_accepts "\x7b\"extra\":1\x7d" { answers := [] }
    (Or.inr ⟨[("extra", Json.num (some 1))], rfl, rfl⟩)

end Survey
